import Mathlib

set_option maxHeartbeats 1000000

namespace ArtSpec

/-- Status models `perfetto::base::Status`: an ok flag, a human-readable
message, and string payloads keyed by name (`GetPayload` / `SetPayload`). -/
structure Status where
  ok : Bool
  message : String
  payloads : List (String × String)
  deriving DecidableEq

/-- Models `base::Status::GetPayload`: the value stored under `key`, if any. -/
def Status.getPayload (s : Status) (key : String) : Option String :=
  (s.payloads.find? (fun p => p.1 == key)).map (fun p => p.2)

/-- Models `base::Status::SetPayload`: stores `value` under `key`. -/
def Status.setPayload (s : Status) (key value : String) : Status :=
  { s with payloads := (key, value) :: s.payloads }

/-- Models `base::ErrStatus`: a fresh error status with the given message and
no payloads. -/
def ErrStatus (msg : String) : Status :=
  { ok := false, message := msg, payloads := [] }

/-- Models `base::OkStatus`. -/
def OkStatus : Status :=
  { ok := true, message := "", payloads := [] }

/-- SqlSource models the part of `SqlSource` used by `AddTracebackIfNeeded`:
the traceback string `AsTraceback(std::nullopt)` derived from its position
metadata. -/
structure SqlSource where
  asTraceback : String
  deriving DecidableEq

/-- The payload key used by `AddTracebackIfNeeded` as the one-time marker. -/
def hasTracebackKey : String := "perfetto.dev/has_traceback"

/-- Embeds `AddTracebackIfNeeded` from trace_processor_impl.h lines 107-119:
ok statuses pass through, an error already carrying the marker passes through,
otherwise a fresh error status with the traceback prefixed to the message is
built and the marker payload is set. -/
def AddTracebackIfNeeded (status : Status) (source : SqlSource) : Status :=
  if status.ok then status
  else if status.getPayload hasTracebackKey == some "true" then status
  else
    let traceback := source.asTraceback
    let st := ErrStatus (traceback ++ status.message)
    st.setPayload hasTracebackKey "true"

/-- ExecutionStats models `PerfettoSqlEngine::ExecutionStats`. -/
structure ExecutionStats where
  statement_count : Nat
  statement_count_with_output : Nat
  column_count : Nat
  deriving DecidableEq

/-- ColumnView models what `IncrementCountForStmt` inspects about an output
column of a stepped statement: its name (`sqlite3_column_name`) and whether
its current value carries the "VOID" pointer tag (`sqlite3_value_pointer`)
set by `WrapSqlFunction`. -/
structure ColumnView where
  name : String
  voidTagged : Bool
  deriving DecidableEq

/-- StmtView models a prepared statement just after its first step: whether it
is already done, and its output columns. -/
structure StmtView where
  isDone : Bool
  columns : List ColumnView
  deriving DecidableEq

/-- Embeds `IncrementCountForStmt` from trace_processor_impl.h lines 72-105:
always bump `statement_count`; bump `statement_count_with_output` unless the
statement is done, or its single column is VOID-tagged, or its single column
is named "suppress_query_output". -/
def IncrementCountForStmt (p : StmtView) (res : ExecutionStats) : ExecutionStats :=
  let res1 := { res with statement_count := res.statement_count + 1 }
  if p.isDone then res1
  else
    match p.columns with
    | [c] =>
      if c.voidTagged then res1
      else if c.name == "suppress_query_output" then res1
      else { res1 with
             statement_count_with_output := res1.statement_count_with_output + 1 }
    | _ => { res1 with
             statement_count_with_output := res1.statement_count_with_output + 1 }

/-- Restates the claim's output condition in the spec's own words: the
statement is not already exhausted after its first step, it is not the case
that it has exactly one output column carrying the VOID sentinel, and it is
not the case that it has exactly one output column with the reserved
suppression name. -/
def producesOutputSpec (p : StmtView) : Bool :=
  !p.isDone &&
  !(match p.columns with | [c] => c.voidTagged | _ => false) &&
  !(match p.columns with
    | [c] => c.name == "suppress_query_output"
    | _ => false)

/-- Embeds `TraceProcessor::Impl::OpenTrace` from trace_processor_impl.cc
lines 70-84: the internal open/read routine is invoked and its status is
computed (returned here as the second component so the model keeps it
observable) but the boolean result is the constant `true` regardless. -/
def OpenTrace (openTraceInternal : String → Status) (filePath : String) :
    Bool × Status :=
  let status := openTraceInternal filePath
  (true, status)

/-- An ok status passes through AddTracebackIfNeeded unchanged. -/
theorem addTraceback_of_ok (s : Status) (src : SqlSource) (hok : s.ok = true) :
    AddTracebackIfNeeded s src = s := by
  unfold AddTracebackIfNeeded
  rw [hok]
  simp

/-- An error status already carrying the marker payload passes through
AddTracebackIfNeeded unchanged. -/
theorem addTraceback_of_marked (s : Status) (src : SqlSource)
    (hok : s.ok = false) (hpl : s.getPayload hasTracebackKey = some "true") :
    AddTracebackIfNeeded s src = s := by
  unfold AddTracebackIfNeeded
  rw [hok]
  simp [hpl]

/-- An unmarked error status is rebuilt with the traceback prefix and the
marker payload. -/
theorem addTraceback_of_unmarked (s : Status) (src : SqlSource)
    (hok : s.ok = false) (hpl : s.getPayload hasTracebackKey ≠ some "true") :
    AddTracebackIfNeeded s src =
      { ok := false, message := src.asTraceback ++ s.message,
        payloads := [(hasTracebackKey, "true")] } := by
  unfold AddTracebackIfNeeded
  rw [hok]
  simp [hpl, Status.setPayload, ErrStatus]

/-- SqlVal models the sqlite typed-value union {Null, Integer, Float, Text,
Blob} handed to intrinsic functions; the float payload is carried opaquely as
its bit pattern, since no arithmetic is performed on it. -/
inductive SqlVal
  | null
  | integer (v : Int)
  | float (bits : Nat)
  | text (s : String)
  | blob (b : List Nat)
  deriving DecidableEq

/-- ModuleFile models `sql_modules::RegisteredModule::ModuleFile`: body text
plus the monotonic `imported` flag. -/
structure ModuleFile where
  sql : String
  imported : Bool
  deriving DecidableEq

/-- SqlModule models a registered module: its files keyed by import key. -/
structure SqlModule where
  import_key_to_file : List (String × ModuleFile)
  deriving DecidableEq

/-- ImportContext models `Import::Context`: the modules keyed by name. -/
structure ImportContext where
  modules : List (String × SqlModule)
  deriving DecidableEq

/-- First-match association-list lookup, modelling `base::FlatHashMap::Find`. -/
def alookup {α : Type} : List (String × α) → String → Option α
  | [], _ => none
  | (k, v) :: rest, key => if k = key then some v else alookup rest key

/-- Sets the `imported` flag of the file stored under `key` (first match),
modelling the in-place mutation `module_file->imported = true`. -/
def setFileImported : List (String × ModuleFile) → String →
    List (String × ModuleFile)
  | [], _ => []
  | (k, f) :: rest, key =>
    if k = key then (k, { f with imported := true }) :: rest
    else (k, f) :: setFileImported rest key

/-- Lifts setFileImported to the module map: updates the file under
(moduleName, key). -/
def setImported : List (String × SqlModule) → String → String →
    List (String × SqlModule)
  | [], _, _ => []
  | (mn, m) :: rest, moduleName, key =>
    if mn = moduleName then
      (mn, { m with
             import_key_to_file := setFileImported m.import_key_to_file key })
        :: rest
    else (mn, m) :: setImported rest moduleName key

/-- Embeds `Import::Run` from import.cc lines 36-88. It is parameterised by
`getModuleName` (sql_modules::GetModuleName, not under src/; the spec only
says a module name is derived from the key) and by `engineExecute`, the
statement pipeline `Execute` returning the statement_count_with_output on
success. The result is the status, the updated context, and the list of file
bodies executed through the pipeline (the side-effect trace). -/
def Import.Run (getModuleName : String → String)
    (engineExecute : String → String → Except String Nat)
    (ctx : ImportContext) (argv : List SqlVal) :
    Except String Unit × ImportContext × List String :=
  if argv.length ≠ 1 then
    (.error "IMPORT: invalid number of args; expected 1", ctx, [])
  else
    match argv with
    | [SqlVal.text import_key] =>
      let module_name := getModuleName import_key
      match alookup ctx.modules module_name with
      | none => (.error "IMPORT: Unknown module name provided", ctx, [])
      | some m =>
        match alookup m.import_key_to_file import_key with
        | none => (.error "IMPORT: Unknown filename provided", ctx, [])
        | some file =>
          if file.imported then (.ok (), ctx, [])
          else
            match engineExecute file.sql import_key with
            | .error e => (.error e, ctx, [file.sql])
            | .ok outputCount =>
              if outputCount > 0 then
                (.error "IMPORT: Imported file returning values.", ctx,
                 [file.sql])
              else
                (.ok (),
                 { modules := setImported ctx.modules module_name import_key },
                 [file.sql])
    | _ => (.error "IMPORT: argument must be a string", ctx, [])

/-- Looking up a file key after setting its imported flag yields the same
file with the flag set. -/
theorem alookup_setFileImported (fs : List (String × ModuleFile)) (key : String)
    (f : ModuleFile) (h : alookup fs key = some f) :
    alookup (setFileImported fs key) key = some { f with imported := true } := by
  induction fs with
  | nil => simp [alookup] at h
  | cons p rest ih =>
    rcases p with ⟨k, g⟩
    by_cases hk : k = key
    · subst hk
      simp [alookup] at h
      simp [setFileImported, alookup, h]
    · simp [alookup, hk] at h
      simp [setFileImported, alookup, hk, ih h]

/-- Looking up a module after updating one of its files yields the module with
that file updated. -/
theorem alookup_setImported (ms : List (String × SqlModule)) (mn key : String)
    (m : SqlModule) (h : alookup ms mn = some m) :
    alookup (setImported ms mn key) mn =
      some { m with
             import_key_to_file := setFileImported m.import_key_to_file key } := by
  induction ms with
  | nil => simp [alookup] at h
  | cons p rest ih =>
    rcases p with ⟨k, g⟩
    by_cases hk : k = mn
    · subst hk
      simp [alookup] at h
      simp [setImported, alookup, h]
    · simp [alookup, hk] at h
      simp [setImported, alookup, hk, ih h]

/-- C2: module import is idempotent: if Import.Run succeeds on a key, running
it again on the resulting context succeeds, executes no file body, and leaves
the context unchanged. -/
theorem importRun_idempotent (gm : String → String)
    (ex : String → String → Except String Nat) (ctx : ImportContext)
    (key : String)
    (h : (Import.Run gm ex ctx [SqlVal.text key]).1 = .ok ()) :
    Import.Run gm ex ((Import.Run gm ex ctx [SqlVal.text key]).2.1)
        [SqlVal.text key] =
      (.ok (), (Import.Run gm ex ctx [SqlVal.text key]).2.1, []) := by
  cases hm : alookup ctx.modules (gm key) with
  | none => simp [Import.Run, hm] at h
  | some m =>
    cases hf : alookup m.import_key_to_file key with
    | none => simp [Import.Run, hm, hf] at h
    | some file =>
      by_cases himp : file.imported = true
      · simp [Import.Run, hm, hf, himp]
      · cases hex : ex file.sql key with
        | error e => simp [Import.Run, hm, hf, himp, hex] at h
        | ok n =>
          by_cases hn : n > 0
          · simp [Import.Run, hm, hf, himp, hex, hn] at h
          · have h2 := alookup_setImported ctx.modules (gm key) key m hm
            have h3 := alookup_setFileImported m.import_key_to_file key file hf
            simp [Import.Run, hm, hf, himp, hex, hn, h2, h3]

/-- Witness for C2 at a concrete one-module context whose file executes with
no output rows. -/
theorem importRun_idempotent_witness :
    Import.Run (fun k => k) (fun _ _ => Except.ok 0)
        ((Import.Run (fun k => k) (fun _ _ => Except.ok 0)
            ⟨[("m", ⟨[("m", ⟨"SELECT 1", false⟩)]⟩)]⟩
            [SqlVal.text "m"]).2.1)
        [SqlVal.text "m"] =
      (.ok (),
       (Import.Run (fun k => k) (fun _ _ => Except.ok 0)
          ⟨[("m", ⟨[("m", ⟨"SELECT 1", false⟩)]⟩)]⟩
          [SqlVal.text "m"]).2.1, []) :=
  importRun_idempotent (fun k => k) (fun _ _ => Except.ok 0)
    ⟨[("m", ⟨[("m", ⟨"SELECT 1", false⟩)]⟩)]⟩ "m" (by rfl)

/-- First-match association-list erase, modelling `base::FlatHashMap::Erase`. -/
def aerase {α : Type} : List (String × α) → String → List (String × α)
  | [], _ => []
  | (k, v) :: rest, key => if k = key then rest else (k, v) :: aerase rest key

/-- ASCII lowercase of one character, as `base::ToLower` does per character. -/
def lowerChar (c : Char) : Char :=
  if 65 ≤ c.toNat ∧ c.toNat ≤ 90 then Char.ofNat (c.toNat + 32) else c

/-- Models `base::ToLower`: ASCII lowercase of a string. -/
def ToLower (s : String) : String := ⟨s.data.map lowerChar⟩

/-- Models `base::StringView::StartsWith("$")` on a parameter name. -/
def startsWithDollar (s : String) : Bool :=
  match s.data with
  | [] => false
  | c :: _ => c == '$'

/-- TableFunctionState carries the per-instance payload of
`CreatedTableFunction::State`; its contents are opaque to the registration
logic under study. -/
structure TableFunctionState where
  prototype_str : String
  sql : String
  deriving DecidableEq

/-- Embeds `PerfettoSqlEngine::OnTableFunctionDestroyed` (lines 543-545):
erase the lowercase-keyed entry; absence trips PERFETTO_CHECK, modelled as
`none` (fatal invariant violation). -/
def OnTableFunctionDestroyed (reg : List (String × TableFunctionState))
    (name : String) : Option (List (String × TableFunctionState)) :=
  if (alookup reg (ToLower name)).isSome then some (aerase reg (ToLower name))
  else none

/-- RegResult models the outcome of the table-function registration tail:
the AlreadyExists error (context unchanged), a PERFETTO_CHECK failure, or
success with the new state map. -/
inductive RegResult
  | alreadyExists (reg : List (String × TableFunctionState))
  | fatal
  | ok (reg : List (String × TableFunctionState))
  deriving DecidableEq

/-- Models the `created_table_function_state_.Insert` call with its
PERFETTO_CHECK(it_and_inserted.second): inserting an already-present key is
fatal. -/
def insertTableFunctionState (reg : List (String × TableFunctionState))
    (lower : String) (st : TableFunctionState) : RegResult :=
  if (alookup reg lower).isSome then .fatal else .ok ((lower, st) :: reg)

/-- Embeds the registration tail of `ExecuteCreateFunction` (table-valued
path, lines 510-528), given the validated per-instance state: if an entry
with the same lowercase name exists and replace is false, fail AlreadyExists;
otherwise execute DROP TABLE whose side effect is OnTableFunctionDestroyed,
then insert the new state. -/
def ExecuteCreateFunctionRegister (reg : List (String × TableFunctionState))
    (fnName : String) (state : TableFunctionState) (replace : Bool) :
    RegResult :=
  let lower_name := (ToLower fnName)
  match alookup reg lower_name with
  | some _ =>
    if !replace then .alreadyExists reg
    else
      match OnTableFunctionDestroyed reg fnName with
      | none => .fatal
      | some reg1 => insertTableFunctionState reg1 lower_name state
  | none => insertTableFunctionState reg lower_name state

/-- A key absent from the key list is not found by alookup. -/
theorem alookup_eq_none_of_not_mem {α : Type} (xs : List (String × α))
    (key : String) (h : key ∉ xs.map Prod.fst) : alookup xs key = none := by
  induction xs with
  | nil => rfl
  | cons p rest ih =>
    rcases p with ⟨k, v⟩
    rw [List.map_cons, List.mem_cons] at h
    push_neg at h
    rw [alookup, if_neg (fun hk => h.1 hk.symm)]
    exact ih h.2

/-- Under unique keys, erasing a key removes it from lookup entirely. -/
theorem alookup_aerase {α : Type} (xs : List (String × α)) (key : String)
    (h : (xs.map Prod.fst).Nodup) : alookup (aerase xs key) key = none := by
  induction xs with
  | nil => rfl
  | cons p rest ih =>
    rcases p with ⟨k, v⟩
    rw [List.map_cons, List.nodup_cons] at h
    by_cases hk : k = key
    · subst hk
      rw [aerase, if_pos rfl]
      exact alookup_eq_none_of_not_mem rest k h.1
    · rw [aerase, if_neg hk, alookup, if_neg hk]
      exact ih h.2

/-- C5: with an existing lowercase-keyed table function, replace=false fails
AlreadyExists leaving the state map intact, while replace=true drops the
existing instance through the destruction path and then inserts the new
state. -/
theorem executeCreateFunction_replace_semantics
    (reg : List (String × TableFunctionState)) (fnName : String)
    (st old : TableFunctionState)
    (hnodup : (reg.map Prod.fst).Nodup)
    (hexists : alookup reg (ToLower fnName) = some old) :
    ExecuteCreateFunctionRegister reg fnName st false = .alreadyExists reg ∧
    ExecuteCreateFunctionRegister reg fnName st true =
      .ok (((ToLower fnName), st) :: aerase reg (ToLower fnName)) := by
  constructor
  · simp [ExecuteCreateFunctionRegister, hexists]
  · have herase := alookup_aerase reg (ToLower fnName) hnodup
    simp [ExecuteCreateFunctionRegister, hexists, OnTableFunctionDestroyed,
          insertTableFunctionState, herase]

/-- Witness for C5 at a one-entry registry keyed "f" with fnName "F". -/
theorem executeCreateFunction_replace_semantics_witness :
    ExecuteCreateFunctionRegister [("f", ⟨"F(x INT)", "SELECT 1"⟩)] "F"
        ⟨"F(y INT)", "SELECT 2"⟩ false =
      .alreadyExists [("f", ⟨"F(x INT)", "SELECT 1"⟩)] ∧
    ExecuteCreateFunctionRegister [("f", ⟨"F(x INT)", "SELECT 1"⟩)] "F"
        ⟨"F(y INT)", "SELECT 2"⟩ true =
      .ok [("f", ⟨"F(y INT)", "SELECT 2"⟩)] :=
  executeCreateFunction_replace_semantics [("f", ⟨"F(x INT)", "SELECT 1"⟩)]
    "F" ⟨"F(y INT)", "SELECT 2"⟩ ⟨"F(x INT)", "SELECT 1"⟩ (by decide)
    (by decide)

/-- ParamCheckError models the three distinct parameter-validation failures of
the table-function body check. -/
inductive ParamCheckError
  | nameless
  | invalidName (name : String)
  | notInPrototype (name : String)
  deriving DecidableEq

/-- Embeds the bound-parameter validation loop of `ExecuteCreateFunction`
(lines 453-483): each bound parameter of the prepared body (none models a
nameless parameter) must be named, must start with the "$" sigil, and must
match the dollar_name of a declared prototype argument; `args` holds the
prototype argument names without the sigil. -/
def validateBodyParams : List (Option String) → List String →
    Except ParamCheckError Unit
  | [], _ => .ok ()
  | none :: _, _ => .error .nameless
  | some name :: rest, args =>
    if !(startsWithDollar name) then .error (.invalidName name)
    else
      match args.find? (fun a => "$" ++ a == name) with
      | none => .error (.notInPrototype name)
      | some _ => validateBodyParams rest args

/-- A parameter that passes all three checks of the validation loop. -/
def paramOkB (args : List String) (p : Option String) : Bool :=
  match p with
  | none => false
  | some n => startsWithDollar n && (args.find? (fun a => "$" ++ a == n)).isSome

/-- C6: a bound parameter whose name lacks the "$" sigil makes validation fail
with the invalid-name error, for every prototype argument list (in particular
whether or not the bare name appears there), provided the preceding
parameters pass; the membership check is never reached for it. -/
theorem validateBodyParams_sigil_before_membership (ps qs : List (Option String))
    (n : String) (args : List String)
    (hn : startsWithDollar n = false)
    (hok : ps.all (paramOkB args) = true) :
    validateBodyParams (ps ++ some n :: qs) args =
      .error (.invalidName n) := by
  induction ps with
  | nil => simp [validateBodyParams, hn]
  | cons p rest ih =>
    simp [List.all_cons] at hok
    obtain ⟨hp, hrest⟩ := hok
    match p with
    | none => simp [paramOkB] at hp
    | some m =>
      simp only [paramOkB, Bool.and_eq_true] at hp
      obtain ⟨hm1, hm2⟩ := hp
      cases hfind : args.find? (fun a => "$" ++ a == m) with
      | none => rw [hfind] at hm2; simp at hm2
      | some a =>
        simp only [List.cons_append, validateBodyParams, hm1, hfind,
                   Bool.not_true]
        simp only [Bool.false_eq_true, if_false]
        exact ih (by simp [List.all_eq_true] at hrest ⊢; exact hrest)

/-- Witness for C6: the body parameter ":x" is rejected as invalid even though
the bare name "x" is a declared prototype argument. -/
theorem validateBodyParams_sigil_witness :
    validateBodyParams [some ":x"] ["x"] =
      .error (.invalidName ":x") :=
  validateBodyParams_sigil_before_membership [] [] ":x" ["x"] (by decide)
    (by decide)

/-- BodyStmt models a successfully prepared body statement for table
materialization: its output column names, the rows it yields in order (each a
list of typed cells), and an optional stepping error which fires after the
listed rows instead of SQLITE_DONE. -/
structure BodyStmt where
  column_names : List String
  rows : List (List SqlVal)
  step_error : Option String
  deriving DecidableEq

/-- RuntimeTable models the finalized materialized table: column names, the
rows appended during construction, and the realized row count fixed by
`AddColumnsAndOverlays`. -/
structure RuntimeTable where
  column_names : List String
  rows : List (List SqlVal)
  row_count : Nat
  deriving DecidableEq

/-- EngineEvent records the externally visible side effects table
registration performs on the embedded engine. -/
inductive EngineEvent
  | registerVirtualTableModule (name : String)
  | bookkeepingInsert (name : String) (ok : Bool)
  deriving DecidableEq

/-- Recognizes a blob cell (SQLITE_BLOB), which table materialization does
not support. -/
def cellIsBlob : SqlVal → Bool
  | .blob _ => true
  | _ => false

/-- Whether any cell of any yielded row is a blob. -/
def rowsHaveBlob (rows : List (List SqlVal)) : Bool :=
  rows.any (fun r => r.any cellIsBlob)

/-- Embeds `PerfettoSqlEngine::RegisterSqlTable` (lines 330-395): prepare the
body (a failure propagates), reject empty column names, copy each row's cells
into the builders rejecting blobs, reject a step error, then finalize the
table with the realized row count and only then register the relation. The
result carries the status, the relation registry, and the engine events
performed. -/
def RegisterSqlTable (regs : List (String × RuntimeTable)) (name : String)
    (prepared : Except String BodyStmt) :
    Status × List (String × RuntimeTable) × List EngineEvent :=
  match prepared with
  | .error e => (ErrStatus e, regs, [])
  | .ok stmt =>
    if stmt.column_names.any (fun s => s == "") then
      (ErrStatus "CREATE PERFETTO TABLE: column name must not be empty",
       regs, [])
    else if rowsHaveBlob stmt.rows then
      (ErrStatus
        "CREATE PERFETTO TABLE: bytes columns are not supported", regs, [])
    else
      match stmt.step_error with
      | some e =>
        (ErrStatus (name ++ ": SQLite error while creating table body: " ++ e),
         regs, [])
      | none =>
        let table : RuntimeTable :=
          { column_names := stmt.column_names, rows := stmt.rows,
            row_count := stmt.rows.length }
        (OkStatus, (name, table) :: regs,
         [.registerVirtualTableModule name])

/-- Embeds `PerfettoSqlEngine::RegisterTable` (lines 137-157): register the
virtual-table module for a static table, then attempt the bookkeeping INSERT
INTO perfetto_tables; an insert error is logged and dropped — the function
returns void, so nothing is propagated. `insertFails` models whether
sqlite3_exec reports an error. -/
def RegisterTable (names : List String) (table_name : String)
    (insertFails : Bool) : List String × List EngineEvent :=
  (table_name :: names,
   [.registerVirtualTableModule table_name,
    .bookkeepingInsert table_name (!insertFails)])

/-- Whether an engine event is the bookkeeping insert into the internal
listing table. -/
def isBookkeepingInsert : EngineEvent → Bool
  | .bookkeepingInsert _ _ => true
  | _ => false

/-- C7: table materialization is atomic: every failure (prepare error, empty
column name, blob cell, step error) yields an error status with the registry
unchanged and no engine side effect, and on success the relation is
registered only after full materialization, finalized with the realized row
count. -/
theorem registerSqlTable_atomic (regs : List (String × RuntimeTable))
    (name : String) (prepared : Except String BodyStmt) :
    ((RegisterSqlTable regs name prepared).1.ok = false →
      (RegisterSqlTable regs name prepared).2.1 = regs ∧
      (RegisterSqlTable regs name prepared).2.2 = []) ∧
    (∀ e, prepared = Except.error e →
      (RegisterSqlTable regs name prepared).1.ok = false) ∧
    (∀ stmt, prepared = Except.ok stmt →
      (stmt.column_names.any (fun s => s == "") = true ∨
       rowsHaveBlob stmt.rows = true ∨ stmt.step_error ≠ none) →
      (RegisterSqlTable regs name prepared).1.ok = false) ∧
    (∀ stmt, prepared = Except.ok stmt →
      stmt.column_names.any (fun s => s == "") = false →
      rowsHaveBlob stmt.rows = false →
      stmt.step_error = none →
      RegisterSqlTable regs name prepared =
        (OkStatus,
         (name, ⟨stmt.column_names, stmt.rows, stmt.rows.length⟩) :: regs,
         [EngineEvent.registerVirtualTableModule name])) := by
  refine ⟨?_, ?_, ?_, ?_⟩
  · intro hfail
    cases prepared with
    | error e => simp [RegisterSqlTable, ErrStatus]
    | ok stmt =>
      by_cases h1 : stmt.column_names.any (fun s => s == "") = true
      · simp [RegisterSqlTable, h1, ErrStatus]
      · by_cases h2 : rowsHaveBlob stmt.rows = true
        · simp [RegisterSqlTable, h1, h2, ErrStatus]
        · cases h3 : stmt.step_error with
          | some e => simp [RegisterSqlTable, h1, h2, h3, ErrStatus]
          | none =>
            exfalso
            simp [RegisterSqlTable, h1, h2, h3, OkStatus] at hfail
  · intro e he
    subst he
    simp [RegisterSqlTable, ErrStatus]
  · intro stmt hok hbad
    subst hok
    rcases hbad with h1 | h2 | h3
    · simp [RegisterSqlTable, h1, ErrStatus]
    · by_cases h1 : stmt.column_names.any (fun s => s == "") = true
      · simp [RegisterSqlTable, h1, ErrStatus]
      · simp [RegisterSqlTable, h1, h2, ErrStatus]
    · by_cases h1 : stmt.column_names.any (fun s => s == "") = true
      · simp [RegisterSqlTable, h1, ErrStatus]
      · by_cases h2 : rowsHaveBlob stmt.rows = true
        · simp [RegisterSqlTable, h1, h2, ErrStatus]
        · cases he : stmt.step_error with
          | none => exact absurd he h3
          | some e => simp [RegisterSqlTable, h1, h2, he, ErrStatus]
  · intro stmt hok h1 h2 h3
    subst hok
    simp [RegisterSqlTable, h1, h2, h3]

/-- Witness for C7, exercising both a blob failure and a successful
materialization of the round-trip rows (1, "a"), (2, NULL). -/
theorem registerSqlTable_atomic_witness :
    (RegisterSqlTable [] "t"
        (.ok ⟨["a"], [[SqlVal.blob [0]]], none⟩)).1.ok = false ∧
    RegisterSqlTable [] "t"
        (.ok ⟨["a", "b"],
              [[SqlVal.integer 1, SqlVal.text "a"],
               [SqlVal.integer 2, SqlVal.null]], none⟩) =
      (OkStatus,
       [("t", ⟨["a", "b"],
               [[SqlVal.integer 1, SqlVal.text "a"],
                [SqlVal.integer 2, SqlVal.null]], 2⟩)],
       [EngineEvent.registerVirtualTableModule "t"]) := by
  constructor
  · exact (registerSqlTable_atomic [] "t"
        (.ok ⟨["a"], [[SqlVal.blob [0]]], none⟩)).2.2.1
      ⟨["a"], [[SqlVal.blob [0]]], none⟩ rfl (Or.inr (Or.inl (by decide)))
  · exact (registerSqlTable_atomic [] "t"
        (.ok ⟨["a", "b"],
              [[SqlVal.integer 1, SqlVal.text "a"],
               [SqlVal.integer 2, SqlVal.null]], none⟩)).2.2.2
      ⟨["a", "b"],
       [[SqlVal.integer 1, SqlVal.text "a"],
        [SqlVal.integer 2, SqlVal.null]], none⟩ rfl (by decide) (by decide) rfl

/-- C8 counterexample: a successful materialized-table registration performs
no bookkeeping insert at all — the claimed best-effort insert does not happen
on this path. -/
theorem registerSqlTable_no_bookkeeping :
    (RegisterSqlTable [] "t"
        (.ok ⟨["a"], [[SqlVal.integer 1]], none⟩)).1.ok = true ∧
    ((RegisterSqlTable [] "t"
        (.ok ⟨["a"], [[SqlVal.integer 1]], none⟩)).2.2.any
      isBookkeepingInsert) = false := by decide

/-- C8 amended: the bookkeeping insert lives in the static-table registration
path RegisterTable, where its failure is indeed never propagated: the
registration result is independent of the insert outcome (the function
returns void), the insert attempt is always made there, and the
materialized-table path performs no bookkeeping insert. -/
theorem registerTable_bookkeeping_best_effort (names : List String)
    (tn : String) :
    (RegisterTable names tn true).1 = (RegisterTable names tn false).1 ∧
    ((RegisterTable names tn true).2.any isBookkeepingInsert = true) ∧
    (∀ regs name prepared,
      ((RegisterSqlTable regs name prepared).2.2.any isBookkeepingInsert)
        = false) := by
  refine ⟨rfl, by simp [RegisterTable, isBookkeepingInsert], ?_⟩
  intro regs name prepared
  cases prepared with
  | error e => simp [RegisterSqlTable]
  | ok stmt =>
    by_cases h1 : stmt.column_names.any (fun s => s == "") = true
    · simp [RegisterSqlTable, h1]
    · by_cases h2 : rowsHaveBlob stmt.rows = true
      · simp [RegisterSqlTable, h1, h2]
      · cases h3 : stmt.step_error with
        | some e => simp [RegisterSqlTable, h1, h2, h3]
        | none => simp [RegisterSqlTable, h1, h2, h3, isBookkeepingInsert]

/-- FilterOp models the constraint comparison kinds of the column filter
engine, including IsNull/IsNotNull. -/
inductive FilterOp
  | eq | ne | lt | le | gt | ge | isNull | isNotNull
  deriving DecidableEq

/-- Constraint models a single-column constraint: comparison kind plus the
literal value (numeric storage). -/
structure Constraint where
  op : FilterOp
  value : Int
  deriving DecidableEq

/-- Modelled from the spec: the overlay abstraction of §4.7 and the data
model (the QueryExecutor implementation and the overlay classes are not under
src/, only their unit tests). A Null overlay's bit vector marks which logical
rows are non-null; a Selector overlay's bit vector selects which rows of the
inner layer are exposed. -/
inductive StorageOverlay
  | nullOverlay (bv : List Bool)
  | selectorOverlay (bv : List Bool)
  deriving DecidableEq

/-- Number of set bits strictly before position `i`. -/
def countTrueBefore (bv : List Bool) (i : Nat) : Nat :=
  ((bv.take i).filter id).length

/-- Position of the i-th set bit, if any. -/
def nthTrue : List Bool → Nat → Option Nat
  | [], _ => none
  | b :: rest, i =>
    if b then
      match i with
      | 0 => some 0
      | j + 1 => (nthTrue rest j).map (fun p => p + 1)
    else (nthTrue rest i).map (fun p => p + 1)

/-- Modelled from the spec: resolving a logical row through the overlay stack,
outermost first. A Null overlay vetoes with null when its bit is unset and
otherwise defers inward at the rank of the row among set bits; a Selector
overlay maps the logical row to the position of its i-th set bit. The result
is the storage index, or none when some overlay marks the row null. -/
def resolveOverlays : List StorageOverlay → Nat → Option Nat
  | [], i => some i
  | StorageOverlay.nullOverlay bv :: rest, i =>
    if bv.getD i false then resolveOverlays rest (countTrueBefore bv i)
    else none
  | StorageOverlay.selectorOverlay bv :: rest, i =>
    match nthTrue bv i with
    | none => none
    | some s => resolveOverlays rest s

/-- SimpleColumn models `QueryExecutor::SimpleColumn`: an overlay stack over
typed storage (numeric, per the unit tests). -/
structure SimpleColumn where
  overlays : List StorageOverlay
  storage : List Int
  deriving DecidableEq

/-- The per-operator comparison on a non-null storage value: storage itself is
never null, so IsNull fails and IsNotNull passes. -/
def evalCmp (op : FilterOp) (x v : Int) : Bool :=
  match op with
  | .eq => x == v
  | .ne => x != v
  | .lt => decide (x < v)
  | .le => decide (x ≤ v)
  | .gt => decide (x > v)
  | .ge => decide (x ≥ v)
  | .isNull => false
  | .isNotNull => true

/-- The contiguous candidate range [start, start+len) as an index list. -/
def rangeList (start len : Nat) : List Nat :=
  (List.range len).map (fun k => start + k)

/-- Modelled from the spec: the indexed strategy
(`QueryExecutor::IndexedColumnFilterForTesting`) evaluates the predicate per
logical row by resolving through the overlay stack and builds the increasing
list of passing rows; a row resolved to null passes exactly the IsNull
operator. -/
def IndexedColumnFilter (c : Constraint) (col : SimpleColumn)
    (candidates : List Nat) : List Nat :=
  candidates.filter (fun i =>
    match resolveOverlays col.overlays i with
    | none => c.op == FilterOp.isNull
    | some s => evalCmp c.op (col.storage.getD s 0) c.value)

/-- Modelled from the spec: the bounds strategy
(`QueryExecutor::BoundedColumnFilterForTesting`) narrows a contiguous
candidate range via the order-aware comparison; IsNull short-circuits to the
empty set since storage itself is never null, and IsNotNull keeps the whole
range. Stated for the overlay-free evaluation the claim quantifies over. -/
def BoundedColumnFilter (c : Constraint) (storage : List Int)
    (start len : Nat) : List Nat :=
  match c.op with
  | .isNull => []
  | .isNotNull => rangeList start len
  | _ => (rangeList start len).filter
      (fun i => evalCmp c.op (storage.getD i 0) c.value)

/-- C4: on an overlay-free column, the bounds strategy and the indexed
strategy agree exactly: for every constraint, storage, and contiguous
candidate range they return the same row-index list. -/
theorem strategy_equivalence_overlay_free (c : Constraint)
    (storage : List Int) (start len : Nat) :
    BoundedColumnFilter c storage start len =
      IndexedColumnFilter c ⟨[], storage⟩ (rangeList start len) := by
  rcases c with ⟨op, v⟩
  cases op <;>
    simp [BoundedColumnFilter, IndexedColumnFilter, resolveOverlays, evalCmp,
          List.filter_true, List.filter_false]

/-- The unit-test vectors of query_executor_unittest.cc, checked against the
model: OnlyStorageRange, OnlyStorageRangeIsNull, OnlyStorageIndex,
NullOverlayIndex, and NullOverlayIndexIsNull. -/
theorem queryExecutor_unittest_vectors :
    BoundedColumnFilter ⟨.ge, 3⟩ [1, 2, 3, 4, 5] 0 5 = [2, 3, 4] ∧
    BoundedColumnFilter ⟨.isNull, 3⟩ [1, 2, 3, 4, 5] 0 5 = [] ∧
    IndexedColumnFilter ⟨.lt, 2⟩ ⟨[], [0, 1, 2, 3, 4, 0, 1, 2, 3, 4]⟩
        (rangeList 0 10) = [0, 1, 5, 6] ∧
    IndexedColumnFilter ⟨.ge, 1⟩
        ⟨[StorageOverlay.nullOverlay
            [true, true, false, true, true, false, true, false, false, true]],
         [0, 1, 2, 0, 1, 2]⟩ (rangeList 0 10) = [1, 3, 6, 9] ∧
    IndexedColumnFilter ⟨.isNull, 3⟩
        ⟨[StorageOverlay.nullOverlay
            [true, true, false, true, true, false, false, false, true, false]],
         [0, 1, 2, 3, 4]⟩ (rangeList 0 10) = [2, 5, 6, 7, 9] := by decide

/-- Ev is the event alphabet of the statement-pipeline trace: preparing the
i-th statement against the embedded engine, the single step performed right
after preparation, and each step performed while draining the statement to
exhaustion before the next statement's first step. -/
inductive Ev
  | prepare (i : Nat)
  | firstStep (i : Nat)
  | drainStep (i : Nat)
  deriving DecidableEq

/-- One Step call on a statement with `r` rows left to yield: the remaining
row count and whether the statement is now done (SQLITE_DONE). -/
def stepOnce (r : Nat) : Nat × Bool :=
  if r > 0 then (r - 1, false) else (0, true)

/-- The drain performed on the previous statement (index, remaining rows,
done flag): the `while (res->Step()) {}` loop runs Step remaining+1 times
unless the statement is already done. -/
def drainEvents (prev : Option (Nat × Nat × Bool)) : List Ev :=
  match prev with
  | some (p, rem, done) =>
    if done then [] else List.replicate (rem + 1) (Ev.drainStep p)
  | none => []

/-- Embeds the statement loop of `ExecuteUntilLastStatement` (lines 202-273)
as an event-trace generator over an abstract statement block, each statement
given by the number of rows it yields. The loop body in source order:
prepare the current statement; if the previous statement exists and is not
done, step it until done; step the newly prepared statement once. -/
def runStmts (i : Nat) (prev : Option (Nat × Nat × Bool)) :
    List Nat → List Ev
  | [] => []
  | r :: rest =>
    Ev.prepare i ::
      (drainEvents prev ++ Ev.firstStep i ::
        runStmts (i + 1) (some (i, (stepOnce r).1, (stepOnce r).2)) rest)

/-- The full trace of a statement block. -/
def execTrace (stmts : List Nat) : List Ev := runStmts 0 none stmts

/-- Closed form of the trace from the second statement on: `i` indexes the
previous statement and `prevRows` is its total row count; each subsequent
statement is prepared, then the previous one is drained, then the new one is
first-stepped. -/
def tailTrace (i : Nat) (prevRows : Nat) : List Nat → List Ev
  | [] => []
  | r :: rest =>
    Ev.prepare (i + 1) ::
      (List.replicate prevRows (Ev.drainStep i) ++
        Ev.firstStep (i + 1) :: tailTrace (i + 1) r rest)

/-- Number of occurrences of an event in a trace. -/
def countEv (e : Ev) : List Ev → Nat
  | [] => 0
  | x :: xs => (if x = e then 1 else 0) + countEv e xs

/-- The suffix of a trace strictly after the first occurrence of `e`. -/
def afterFirst (e : Ev) : List Ev → List Ev
  | [] => []
  | x :: xs => if x = e then xs else afterFirst e xs

theorem countEv_append (e : Ev) (xs ys : List Ev) :
    countEv e (xs ++ ys) = countEv e xs + countEv e ys := by
  induction xs with
  | nil => simp [countEv]
  | cons x xs ih =>
    simp only [List.cons_append, countEv, List.append_eq]
    rw [ih]
    omega

theorem countEv_replicate (e d : Ev) (n : Nat) :
    countEv e (List.replicate n d) = if d = e then n else 0 := by
  induction n with
  | zero => simp [countEv]
  | succ n ih =>
    rw [List.replicate_succ]
    simp only [countEv, ih]
    by_cases h : d = e
    · rw [if_pos h, if_pos h, if_pos h]
      omega
    · rw [if_neg h, if_neg h, if_neg h]

theorem afterFirst_append_of_not_mem (e : Ev) (xs ys : List Ev)
    (h : e ∉ xs) : afterFirst e (xs ++ ys) = afterFirst e ys := by
  induction xs with
  | nil => rfl
  | cons x xs ih =>
    rw [List.mem_cons] at h
    push_neg at h
    rw [List.cons_append, afterFirst, if_neg (fun hx => h.1 hx.symm)]
    exact ih h.2

theorem drainEvents_stepOnce (i r : Nat) :
    drainEvents (some (i, (stepOnce r).1, (stepOnce r).2)) =
      List.replicate r (Ev.drainStep i) := by
  by_cases hr : r > 0
  · simp only [drainEvents, stepOnce, if_pos hr, Bool.false_eq_true,
               if_false]
    congr 1
    omega
  · have hr0 : r = 0 := by omega
    subst hr0
    rfl

theorem runStmts_eq_tailTrace (rest : List Nat) (i r : Nat) :
    runStmts (i + 1) (some (i, (stepOnce r).1, (stepOnce r).2)) rest =
      tailTrace i r rest := by
  induction rest generalizing i r with
  | nil => rfl
  | cons r2 rest' ih =>
    rw [runStmts, tailTrace, drainEvents_stepOnce, ih]

theorem execTrace_closed (r : Nat) (rest : List Nat) :
    execTrace (r :: rest) =
      Ev.prepare 0 :: Ev.firstStep 0 :: tailTrace 0 r rest := by
  rw [execTrace, runStmts, runStmts_eq_tailTrace]
  rfl

theorem countEv_firstStep_tailTrace (rest : List Nat) (i r j : Nat) :
    countEv (Ev.firstStep j) (tailTrace i r rest) =
      if i + 1 ≤ j ∧ j < i + 1 + rest.length then 1 else 0 := by
  induction rest generalizing i r with
  | nil =>
    simp only [tailTrace, countEv, List.length_nil]
    split <;> omega
  | cons r2 rest' ih =>
    simp only [tailTrace, countEv, countEv_append, countEv_replicate, ih,
               List.length_cons]
    rw [if_neg (show Ev.prepare (i + 1) ≠ Ev.firstStep j by simp),
        if_neg (show Ev.drainStep i ≠ Ev.firstStep j by simp)]
    by_cases hj : i + 1 = j
    · rw [if_pos (by rw [hj]), if_neg (by omega), if_pos (by omega)]
    · rw [if_neg (fun he => hj (Ev.firstStep.inj he))]
      by_cases hc : i + 1 + 1 ≤ j ∧ j < i + 1 + 1 + rest'.length
      · rw [if_pos hc, if_pos (by omega)]
      · rw [if_neg hc, if_neg (by omega)]

theorem countEv_drainStep_tailTrace_lt (rest : List Nat) (i r j : Nat)
    (h : j < i) : countEv (Ev.drainStep j) (tailTrace i r rest) = 0 := by
  induction rest generalizing i r with
  | nil => rfl
  | cons r2 rest' ih =>
    simp only [tailTrace, countEv, countEv_append, countEv_replicate]
    rw [if_neg (show Ev.prepare (i + 1) ≠ Ev.drainStep j by simp),
        if_neg (show Ev.drainStep i ≠ Ev.drainStep j from fun he =>
          absurd (Ev.drainStep.inj he) (by omega)),
        if_neg (show Ev.firstStep (i + 1) ≠ Ev.drainStep j by simp),
        ih (i + 1) r2 (by omega)]

theorem countEv_drainStep_tailTrace (rest : List Nat) (r i j : Nat)
    (h : j + 1 ≤ rest.length) :
    countEv (Ev.drainStep (i + j)) (tailTrace i r rest) =
      (r :: rest).getD j 0 := by
  induction rest generalizing i r j with
  | nil => simp at h
  | cons r2 rest' ih =>
    cases j with
    | zero =>
      simp only [tailTrace, countEv, countEv_append, countEv_replicate,
                 Nat.add_zero, List.getD_cons_zero]
      rw [countEv_drainStep_tailTrace_lt rest' (i + 1) r2 i (by omega)]
      simp
    | succ j' =>
      simp only [tailTrace, countEv, countEv_append, countEv_replicate,
                 List.getD_cons_succ]
      rw [if_neg (show Ev.prepare (i + 1) ≠ Ev.drainStep (i + (j' + 1))
            by simp),
          if_neg (show Ev.drainStep i ≠ Ev.drainStep (i + (j' + 1)) from
            fun he => absurd (Ev.drainStep.inj he) (by omega)),
          if_neg (show Ev.firstStep (i + 1) ≠ Ev.drainStep (i + (j' + 1))
            by simp),
          show i + (j' + 1) = (i + 1) + j' by omega,
          ih r2 (i + 1) j' (by simp only [List.length_cons] at h; omega)]
      omega

theorem afterFirst_drain_tailTrace (rest : List Nat) (i r j : Nat)
    (hij : i ≤ j) (hlen : j + 1 ≤ i + rest.length) :
    countEv (Ev.drainStep j)
      (afterFirst (Ev.firstStep (j + 1)) (tailTrace i r rest)) = 0 := by
  induction rest generalizing i r with
  | nil => rfl
  | cons r2 rest' ih =>
    rw [tailTrace, afterFirst,
        if_neg (show Ev.prepare (i + 1) ≠ Ev.firstStep (j + 1) by simp)]
    rw [afterFirst_append_of_not_mem _ _ _ (by
      intro hm
      rw [List.mem_replicate] at hm
      exact absurd hm.2 (by simp))]
    by_cases hji : j = i
    · subst hji
      rw [afterFirst, if_pos rfl]
      exact countEv_drainStep_tailTrace_lt rest' (j + 1) r2 j (by omega)
    · rw [afterFirst,
          if_neg (show Ev.firstStep (i + 1) ≠ Ev.firstStep (j + 1) from
            fun he => absurd (Ev.firstStep.inj he) (by omega))]
      exact ih (i + 1) r2 (by omega)
        (by simp only [List.length_cons] at hlen; omega)

/-- States C1 as the claim is written: for every statement i that is followed
by another statement, every drain step of statement i occurs before statement
i+1 is prepared, i.e. no drain step of i appears after the prepare event of
i+1 in the trace. -/
def drainBeforePrepareClaim (stmts : List Nat) : Prop :=
  ∀ i, i + 1 < stmts.length →
    countEv (Ev.drainStep i)
      (afterFirst (Ev.prepare (i + 1)) (execTrace stmts)) = 0

/-- C1 counterexample: for the two-statement block whose first statement
yields two rows, the trace prepares statement 1 first and only then drains
statement 0, so the drain steps of statement 0 occur after the prepare of
statement 1 and the claim as stated is false. -/
theorem executeUntilLast_drain_order_counterexample :
    execTrace [2, 0] =
      [Ev.prepare 0, Ev.firstStep 0, Ev.prepare 1, Ev.drainStep 0,
       Ev.drainStep 0, Ev.firstStep 1] ∧
    ¬ drainBeforePrepareClaim [2, 0] :=
  ⟨by decide, fun h => absurd (h 0 (by decide)) (by decide)⟩

/-- C1 amended: for every statement block, every prepared statement is
first-stepped exactly once; every statement followed by another is fully
drained (all of its row-yielding step calls happen, as many as its row
count); and the drain completes before the next statement's first step — but
after the next statement is prepared, not before, as the trace shape shows. -/
theorem executeUntilLast_drain_before_first_step (stmts : List Nat) :
    (∀ i, i < stmts.length →
      countEv (Ev.firstStep i) (execTrace stmts) = 1) ∧
    (∀ i, i + 1 < stmts.length →
      countEv (Ev.drainStep i) (execTrace stmts) = stmts.getD i 0) ∧
    (∀ i, i + 1 < stmts.length →
      countEv (Ev.drainStep i)
        (afterFirst (Ev.firstStep (i + 1)) (execTrace stmts)) = 0) := by
  cases stmts with
  | nil =>
    refine ⟨?_, ?_, ?_⟩ <;> intro i hi <;> simp at hi
  | cons r rest =>
    refine ⟨?_, ?_, ?_⟩
    · intro i hi
      rw [execTrace_closed]
      simp only [countEv, countEv_firstStep_tailTrace]
      cases i with
      | zero =>
        rw [if_neg (show Ev.prepare 0 ≠ Ev.firstStep 0 by simp),
            if_pos rfl, if_neg (by omega)]
      | succ i' =>
        simp only [List.length_cons] at hi
        rw [if_neg (show Ev.prepare 0 ≠ Ev.firstStep (i' + 1) by simp),
            if_neg (show Ev.firstStep 0 ≠ Ev.firstStep (i' + 1) from
              fun he => absurd (Ev.firstStep.inj he) (by omega)),
            if_pos (by omega)]
    · intro i hi
      simp only [List.length_cons] at hi
      rw [execTrace_closed]
      simp only [countEv]
      rw [if_neg (show Ev.prepare 0 ≠ Ev.drainStep i by simp),
          if_neg (show Ev.firstStep 0 ≠ Ev.drainStep i by simp)]
      have hc := countEv_drainStep_tailTrace rest r 0 i (by omega)
      rw [Nat.zero_add] at hc
      rw [hc]
      omega
    · intro i hi
      simp only [List.length_cons] at hi
      rw [execTrace_closed, afterFirst,
          if_neg (show Ev.prepare 0 ≠ Ev.firstStep (i + 1) by simp),
          afterFirst,
          if_neg (show Ev.firstStep 0 ≠ Ev.firstStep (i + 1) from
            fun he => absurd (Ev.firstStep.inj he) (by omega))]
      exact afterFirst_drain_tailTrace rest 0 r i (by omega) (by omega)

/-- Witness for C1's amended theorem at the block [2, 0] and statement 0. -/
theorem executeUntilLast_drain_before_first_step_witness :
    countEv (Ev.firstStep 0) (execTrace [2, 0]) = 1 ∧
    countEv (Ev.drainStep 0) (execTrace [2, 0]) =
      ([2, 0] : List Nat).getD 0 0 ∧
    countEv (Ev.drainStep 0)
      (afterFirst (Ev.firstStep 1) (execTrace [2, 0])) = 0 := by
  have h := executeUntilLast_drain_before_first_step [2, 0]
  exact ⟨h.1 0 (by decide), h.2.1 0 (by decide), h.2.2 0 (by decide)⟩

/-- C9: traceback attachment is idempotent: an ok status is returned
unchanged; wrapping twice equals wrapping once; and a fresh (unmarked) error
gets the traceback prefix and the marker payload exactly once. -/
theorem addTracebackIfNeeded_once (s : Status) (src : SqlSource) :
    (s.ok = true → AddTracebackIfNeeded s src = s) ∧
    AddTracebackIfNeeded (AddTracebackIfNeeded s src) src =
      AddTracebackIfNeeded s src ∧
    (s.ok = false → s.getPayload hasTracebackKey ≠ some "true" →
      (AddTracebackIfNeeded s src).message = src.asTraceback ++ s.message ∧
      (AddTracebackIfNeeded s src).getPayload hasTracebackKey = some "true") := by
  refine ⟨fun hok => addTraceback_of_ok s src hok, ?_, ?_⟩
  · rcases hok : s.ok with _ | _
    · by_cases hpl : s.getPayload hasTracebackKey = some "true"
      · rw [addTraceback_of_marked s src hok hpl]
        exact addTraceback_of_marked s src hok hpl
      · rw [addTraceback_of_unmarked s src hok hpl]
        apply addTraceback_of_marked _ src rfl
        simp [Status.getPayload]
    · rw [addTraceback_of_ok s src hok, addTraceback_of_ok s src hok]
  · intro hok hpl
    rw [addTraceback_of_unmarked s src hok hpl]
    simp [Status.getPayload]

/-- Witness for C9 at a concrete unmarked error status and source. -/
theorem addTracebackIfNeeded_once_witness :
    let s := ErrStatus "boom"
    let src : SqlSource := ⟨"tb: "⟩
    AddTracebackIfNeeded (AddTracebackIfNeeded s src) src =
      AddTracebackIfNeeded s src ∧
    (AddTracebackIfNeeded s src).message = "tb: " ++ "boom" ∧
    (AddTracebackIfNeeded s src).getPayload hasTracebackKey = some "true" := by
  have h := addTracebackIfNeeded_once (ErrStatus "boom") ⟨"tb: "⟩
  exact ⟨h.2.1, (h.2.2 (by decide) (by decide)).1, (h.2.2 (by decide) (by decide)).2⟩

/-- C3: a statement is counted as producing output if and only if it is not
done after its first step, its sole column does not carry the VOID sentinel,
and its sole column is not named "suppress_query_output". -/
theorem incrementCountForStmt_output_iff (p : StmtView) (res : ExecutionStats) :
    (IncrementCountForStmt p res).statement_count_with_output =
      res.statement_count_with_output +
        (if producesOutputSpec p then 1 else 0) := by
  rcases p with ⟨done, cols⟩
  cases done
  · rcases cols with _ | ⟨c, _ | ⟨d, t⟩⟩
    · simp [IncrementCountForStmt, producesOutputSpec]
    · by_cases hv : c.voidTagged = true
      · simp [IncrementCountForStmt, producesOutputSpec, hv]
      · by_cases hn : c.name = "suppress_query_output"
        · simp [IncrementCountForStmt, producesOutputSpec, hv, hn]
        · simp [IncrementCountForStmt, producesOutputSpec, hv, hn]
    · simp [IncrementCountForStmt, producesOutputSpec]
  · simp [IncrementCountForStmt, producesOutputSpec]

/-- C10: the host-facing OpenTrace returns true for every input, even when the
internal open/read routine reports a failure. -/
theorem openTrace_always_true (internal : String → Status) (path : String) :
    (OpenTrace internal path).1 = true ∧
    ((internal path).ok = false → (OpenTrace internal path).1 = true) :=
  ⟨rfl, fun _ => rfl⟩

/-- Witness for C10 at a concrete failing internal routine. -/
theorem openTrace_always_true_witness :
    (OpenTrace (fun _ => ErrStatus "Could not read trace file") "trace.pb").1 =
      true ∧
    (ErrStatus "Could not read trace file").ok = false :=
  ⟨(openTrace_always_true (fun _ => ErrStatus "Could not read trace file")
      "trace.pb").2 rfl, rfl⟩

end ArtSpec
